import Mathlib

set_option maxRecDepth 4000

/-!
Shallow embedding of the goskills agent core (Go sources in src/).

The repository contains two parallel versions of the subagent file
(an English-labelled one, src/README.md lines 85-383, and a localized
one, lines 384-782).  Definitions carrying an `En`/`Zh` suffix or a
`SearchVariant` parameter embed the respective version; everything else
is common to both.  External collaborators (the OpenAI client, the
search back-ends, the OS process and file primitives) are modelled as
oracle fields of environment structures; the repository's own control
flow is translated literally.
-/

/-- Chat message role (openai.ChatMessageRole constants). -/
inductive Role
  | system
  | user
  | assistant
  | tool
deriving DecidableEq

/-- An LLM-requested tool invocation (openai.ToolCall). -/
structure ToolCall where
  id : String
  name : String
  arguments : String
deriving DecidableEq

/-- A chat message (openai.ChatCompletionMessage).  `toolCalls = none`
models the Go nil slice checked by `msg.ToolCalls == nil`. -/
structure Msg where
  role : Role
  content : String
  toolCallId : String
  toolCalls : Option (List ToolCall)
deriving DecidableEq

/-- GoTask types handled by the subagents. -/
inductive TaskType
  | search
  | analyze
  | report
  | render
deriving DecidableEq

/-- A dynamically typed parameter value, as stored in the Go
`map[string]interface\x7b\x7d`; `other` stands for any value of a type the
code never successfully type-asserts. -/
inductive ParamValue
  | str (s : String)
  | strList (l : List String)
  | other
deriving DecidableEq

/-- A task handed to a subagent. -/
structure GoTask where
  type : TaskType
  description : String
  parameters : List (String × ParamValue)
deriving DecidableEq

/-- Map lookup `task.Parameters[k]`. -/
def GoTask.getParam (t : GoTask) (k : String) : Option ParamValue :=
  (t.parameters.find? (fun p => p.1 == k)).map (fun p => p.2)

/-- The Result struct returned by every subagent; `metadataQuery` models
the only metadata key the Search subagent sets. -/
structure GoResult where
  taskType : TaskType
  success : Bool
  output : String
  error : String
  metadataQuery : Option String
deriving DecidableEq

/-- Oracles for the search back-ends and the interaction handler used by
`SearchSubagent.Execute`.  `Except.error e` models a non-nil Go error. -/
structure SearchEnv where
  tavily : String → Except String String
  tavilyWithLimit : String → Nat → Except String String
  duckduckgo : String → Except String String
  wikipedia : String → Except String String
  reviewSearchResults : String → Except String Bool

/-- The per-file constants of the two versions of the Search subagent:
the limit passed to `TavilySearchWithLimit` and the two concatenation
headers. -/
structure SearchVariant where
  moreLimit : Nat
  webHeader : String
  wikiHeader : String

/-- Constants of the English version (src/README.md lines 120-188). -/
def searchVariantEn : SearchVariant :=
  { moreLimit := 100, webHeader := "Web Search Results:", wikiHeader := "Wikipedia Results:" }

/-- Constants of the localized version (src/README.md lines 424-505). -/
def searchVariantZh : SearchVariant :=
  { moreLimit := 50, webHeader := "网络搜索结果:", wikiHeader := "维基百科结果:" }

/-- Query extraction: `task.Parameters["query"].(string)` falling back to
the description. -/
def taskQuery (t : GoTask) : String :=
  match t.getParam "query" with
  | some (ParamValue.str s) => s
  | _ => t.description

/-- Value of the `searchResult` variable after the Tavily/DuckDuckGo
if-else block of `SearchSubagent.Execute`, or the terminal error of the
double-failure return. -/
def resolveWeb (v : SearchVariant) (hasHandler : Bool) (env : SearchEnv) (q : String) :
    Except String String :=
  match env.tavily q with
  | Except.error _ => env.duckduckgo q
  | Except.ok r =>
    if hasHandler then
      match env.reviewSearchResults r with
      | Except.ok true =>
        match env.tavilyWithLimit q v.moreLimit with
        | Except.ok more => Except.ok more
        | Except.error _ => Except.ok r
      | _ => Except.ok r
    else Except.ok r

/-- The Wikipedia augmentation step: fmt.Sprintf with the variant's two
headers when Wikipedia returns a nil error and a non-empty string. -/
def addWikipedia (v : SearchVariant) (env : SearchEnv) (q r : String) : String :=
  match env.wikipedia q with
  | Except.ok w =>
    if w ≠ "" then v.webHeader ++ "\n" ++ r ++ "\n\n" ++ v.wikiHeader ++ "\n" ++ w else r
  | Except.error _ => r

/-- `SearchSubagent.Execute`, returning the Go pair (Result, error). -/
def SearchSubagent.Execute (v : SearchVariant) (hasHandler : Bool) (env : SearchEnv)
    (task : GoTask) : GoResult × Option String :=
  match resolveWeb v hasHandler env (taskQuery task) with
  | Except.error e =>
    ({ taskType := TaskType.search, success := false, output := "", error := e,
       metadataQuery := none }, some e)
  | Except.ok r =>
    ({ taskType := TaskType.search, success := true,
       output := addWikipedia v env (taskQuery task) r, error := "",
       metadataQuery := some (taskQuery task) }, none)

/-- User prompt built by the English `AnalysisSubagent.Execute`
(src/README.md lines 217-225): the context parameter is type-asserted to
a single string. -/
def analysisPromptEn (t : GoTask) : String :=
  match t.getParam "context" with
  | some (ParamValue.str c) =>
    "Analyze the following information and " ++ t.description ++ ":\n\n" ++ c
  | _ => t.description

/-- User prompt built by the localized `AnalysisSubagent.Execute`
(src/README.md lines 539-547): the context parameter is type-asserted to
a string slice and joined with blank lines when non-empty. -/
def analysisPromptZh (t : GoTask) : String :=
  match t.getParam "context" with
  | some (ParamValue.strList l) =>
    if l.length > 0 then
      "分析以下信息并 " ++ t.description ++ ":\n\n" ++ String.intercalate "\n\n" l
    else t.description
  | _ => t.description

/-- Content resolution of the English `RenderSubagent.Execute`
(src/README.md lines 365-369): the content parameter or the
description; no context lookup. -/
def renderContentEn (t : GoTask) : String :=
  match t.getParam "content" with
  | some (ParamValue.str c) => c
  | _ => t.description

/-- Go unicode.IsSpace restricted to the Latin-1 range (the code points
the repository's data can place at the ends of a context entry). -/
def isGoSpace (c : Char) : Bool :=
  c == ' ' || c == '\t' || c == '\n' || c == Char.ofNat 11 || c == Char.ofNat 12 ||
    c == Char.ofNat 13 || c == Char.ofNat 133 || c == Char.ofNat 160

/-- strings.TrimSpace. -/
def goTrimSpace (s : List Char) : List Char :=
  ((s.dropWhile isGoSpace).reverse.dropWhile isGoSpace).reverse

/-- strings.Index: position of the first occurrence of `sub` in `s`
(character positions; the Go byte offsets are used only to cut at the
same occurrence, so the cut results coincide). -/
def goFindSub : List Char → List Char → Option Nat
  | [], sub => if sub.isPrefixOf ([] : List Char) then some 0 else none
  | c :: rest, sub =>
    if sub.isPrefixOf (c :: rest) then some 0
    else (goFindSub rest sub).map (fun i => i + 1)

/-- The header literal searched for by the localized Render subagent. -/
def reportHeaderChars : List Char := "Output from REPORT task:".toList

/-- The generic header prefix searched for in the fallback branch. -/
def outputFromChars : List Char := "Output from ".toList

/-- `content = content[idx+1:]` after `idx := strings.Index(content, "\n")`,
kept whole when there is no newline. -/
def stripFirstLine (s : List Char) : List Char :=
  match goFindSub s ['\n'] with
  | some i => s.drop (i + 1)
  | none => s

/-- The fallback header strip: cut everything through the first newline
that follows the first occurrence of "Output from ", when both exist. -/
def stripOutputHeader (s : List Char) : List Char :=
  match goFindSub s outputFromChars with
  | some i =>
    match goFindSub (s.drop i) ['\n'] with
    | some j => s.drop (i + j + 1)
    | none => s
  | none => s

/-- The backwards scan `for i := len-1; i >= 0; i--` returning the last
entry containing `sub`. -/
def findLastContaining (l : List String) (sub : List Char) : Option String :=
  match l with
  | [] => none
  | x :: xs =>
    match findLastContaining xs sub with
    | some y => some y
    | none => if (goFindSub x.toList sub).isSome then some x else none

/-- Content resolution of the localized `RenderSubagent.Execute`
(src/README.md lines 719-752). -/
def renderContentZh (t : GoTask) : String :=
  match t.getParam "content" with
  | some (ParamValue.str c) => c
  | _ =>
    match t.getParam "context" with
    | some (ParamValue.strList ctx) =>
      if ctx.length > 0 then
        match findLastContaining ctx reportHeaderChars with
        | some entry => (goTrimSpace (stripFirstLine entry.toList)).asString
        | none => (goTrimSpace (stripOutputHeader (ctx.getLastD "").toList)).asString
      else t.description
    | _ => t.description

example : taskQuery { type := TaskType.search, description := "d", parameters := [] } = "d" := by
  decide

example :
    renderContentZh
      { type := TaskType.render, description := "D",
        parameters := [("context", ParamValue.strList ["Output from REPORT task:\nHello"])] } =
      "Hello" := by
  decide

example :
    renderContentZh
      { type := TaskType.render, description := "D",
        parameters := [("context", ParamValue.strList ["Output from SEARCH task:\nWeb stuff"])] } =
      "Web stuff" := by
  decide

/-- Oracles for `executeSkillWithTools` (src/README.md lines 922-1003):
the chat completion endpoint (returning the content and ToolCalls of
`resp.Choices[0].Message`), the stdin approval prompt (`true` models the
user typing y), and `executeToolCall`. -/
structure ToolLoopEnv where
  chat : List Msg → Except String (String × Option (List ToolCall))
  approve : List Msg → ToolCall → Bool
  execTool : ToolCall → Except String String

/-- The tool-role message appended when the user denies a tool call. -/
def deniedMsg (tc : ToolCall) : Msg :=
  { role := Role.tool, content := "Error: User denied tool execution.",
    toolCallId := tc.id, toolCalls := none }

/-- The tool-role message appended after `executeToolCall` returns. -/
def toolResultMsg (tc : ToolCall) (r : Except String String) : Msg :=
  match r with
  | Except.error e =>
    { role := Role.tool, content := "Error: " ++ e, toolCallId := tc.id, toolCalls := none }
  | Except.ok out =>
    { role := Role.tool, content := out, toolCallId := tc.id, toolCalls := none }

/-- The inner `for _, tc := range msg.ToolCalls` loop: one tool-role
message is appended per call, the security gate first when auto-approve
is off. -/
def toolRound (auto : Bool) (env : ToolLoopEnv) : List Msg → List ToolCall → List Msg
  | msgs, [] => msgs
  | msgs, tc :: tcs =>
    if !auto && !env.approve msgs tc then
      toolRound auto env (msgs ++ [deniedMsg tc]) tcs
    else
      toolRound auto env (msgs ++ [toolResultMsg tc (env.execTool tc)]) tcs

/-- The assistant message appended from `resp.Choices[0].Message`. -/
def assistantMsg (c : String) (otc : Option (List ToolCall)) : Msg :=
  { role := Role.assistant, content := c, toolCallId := "", toolCalls := otc }

/-- Final state of the loop: the Go return value, the `messages` slice,
and a ghost counter of chat-completion rounds performed. -/
structure ExecOut where
  result : Except String String
  messages : List Msg
  rounds : Nat

/-- The `for i := 0; i < 10; i++` loop of `executeSkillWithTools`,
with the remaining iteration count as fuel. -/
def execLoop (auto : Bool) (env : ToolLoopEnv) : Nat → List Msg → Nat → ExecOut
  | 0, msgs, r =>
    { result := Except.error "exceeded maximum tool call iterations", messages := msgs,
      rounds := r }
  | Nat.succ fuel, msgs, r =>
    match env.chat msgs with
    | Except.error e =>
      { result := Except.error ("ChatCompletion error: " ++ e), messages := msgs,
        rounds := r + 1 }
    | Except.ok (content, otc) =>
      match otc with
      | none =>
        { result := Except.ok content,
          messages := msgs ++ [assistantMsg content none], rounds := r + 1 }
      | some tcs =>
        execLoop auto env fuel
          (toolRound auto env (msgs ++ [assistantMsg content (some tcs)]) tcs) (r + 1)

/-- A skill package as used by the runner. -/
structure SkillPackage where
  body : String
  path : String

/-- The system message content built from the skill body and the skill
context section. -/
def skillSystemContent (sk : SkillPackage) : String :=
  sk.body ++ "\n\n## SKILL CONTEXT\n" ++ "Skill Root Path: " ++ sk.path ++ "\n"

/-- The two messages the loop starts from. -/
def initMessages (sk : SkillPackage) (userPrompt : String) : List Msg :=
  [{ role := Role.system, content := skillSystemContent sk, toolCallId := "",
     toolCalls := none },
   { role := Role.user, content := userPrompt, toolCallId := "", toolCalls := none }]

/-- `executeSkillWithTools` (src/README.md lines 922-1003). -/
def executeSkillWithTools (auto : Bool) (env : ToolLoopEnv) (sk : SkillPackage)
    (userPrompt : String) : ExecOut :=
  execLoop auto env 10 (initMessages sk userPrompt) 0

/-- Number of tool-role messages in a conversation. -/
def toolCount (msgs : List Msg) : Nat :=
  msgs.countP (fun m => m.role == Role.tool)

/-- Outcome of one OS process run (cmd.Run with captured buffers). -/
structure RunOutcome where
  stdout : String
  stderr : String
  err : Option String

/-- Oracles for `RunPythonScript` (src/tool/python_tool.go): PATH lookup
and process execution. -/
structure PyEnv where
  lookPath : String → Except String String
  run : String → String → List String → RunOutcome

/-- Return value of the modelled `RunPythonScript` together with a ghost
trace of the commands actually executed. -/
structure PyExec where
  result : Except String String
  invoked : List (String × String × List String)

/-- The command execution tail of `RunPythonScript`: run the script under
`exe` and either combine stdout+stderr or wrap the failure. -/
def runWithExe (env : PyEnv) (exe scriptPath : String) (args : List String) : PyExec :=
  let o := env.run exe scriptPath args
  match o.err with
  | some e =>
    { result := Except.error
        ("failed to run python script " ++ scriptPath ++ " with " ++ exe ++ ": " ++ e ++
          "\nStdout: " ++ o.stdout ++ "\nStderr: " ++ o.stderr),
      invoked := [(exe, scriptPath, args)] }
  | none =>
    { result := Except.ok (o.stdout ++ o.stderr), invoked := [(exe, scriptPath, args)] }

/-- `RunPythonScript` (src/tool/python_tool.go lines 12-33). -/
def RunPythonScript (env : PyEnv) (scriptPath : String) (args : List String) : PyExec :=
  match env.lookPath "python3" with
  | Except.ok exe => runWithExe env exe scriptPath args
  | Except.error _ =>
    match env.lookPath "python" with
    | Except.ok exe => runWithExe env exe scriptPath args
    | Except.error e =>
      { result := Except.error ("failed to find python3 or python in PATH: " ++ e),
        invoked := [] }

/-- filepath.IsAbs on a Unix host: a non-empty path starting with a
slash. -/
def goIsAbs (p : String) : Bool :=
  match p.toList with
  | [] => false
  | c :: _ => c == '/'

/-- Oracles for the read_file branch of `executeToolCall`: filepath.Join,
os.Stat success, and tool.ReadFile. -/
structure FileEnv where
  join : String → String → String
  statOk : String → Bool
  readFile : String → Except String String

/-- The path actually handed to tool.ReadFile by the read_file case of
`executeToolCall` (src/README.md lines 1048-1062). -/
def resolveReadFilePath (env : FileEnv) (filePath skillPath : String) : String :=
  if !goIsAbs filePath && skillPath != "" then
    let resolved := env.join skillPath filePath
    if env.statOk resolved then resolved else filePath
  else filePath

/-- The read_file case of `executeToolCall`, including the trailing error
wrap of src/README.md lines 1119-1122. -/
def executeToolCallReadFile (env : FileEnv) (filePath skillPath : String) :
    Except String String :=
  match env.readFile (resolveReadFilePath env filePath skillPath) with
  | Except.error e => Except.error ("tool execution failed for read_file: " ++ e)
  | Except.ok out => Except.ok out

lemma resolveWeb_tavily_err (v : SearchVariant) (hh : Bool) (env : SearchEnv) (q e : String)
    (h : env.tavily q = Except.error e) :
    resolveWeb v hh env q = env.duckduckgo q := by
  unfold resolveWeb
  rw [h]

lemma resolveWeb_tavily_ok (v : SearchVariant) (hh : Bool) (env : SearchEnv) (q r : String)
    (h : env.tavily q = Except.ok r) :
    ∃ r2, resolveWeb v hh env q = Except.ok r2 := by
  unfold resolveWeb
  rw [h]
  cases hh with
  | false => exact ⟨r, rfl⟩
  | true =>
    cases hrev : env.reviewSearchResults r with
    | error e => exact ⟨r, by simp [hrev]⟩
    | ok b =>
      cases b with
      | false => exact ⟨r, by simp [hrev]⟩
      | true =>
        cases hlim : env.tavilyWithLimit q v.moreLimit with
        | ok more => exact ⟨more, by simp [hrev, hlim]⟩
        | error e => exact ⟨r, by simp [hrev, hlim]⟩

lemma Execute_of_resolve_ok (v : SearchVariant) (hh : Bool) (env : SearchEnv) (task : GoTask)
    (r : String) (h : resolveWeb v hh env (taskQuery task) = Except.ok r) :
    SearchSubagent.Execute v hh env task =
      ({ taskType := TaskType.search, success := true,
         output := addWikipedia v env (taskQuery task) r, error := "",
         metadataQuery := some (taskQuery task) }, none) := by
  unfold SearchSubagent.Execute
  rw [h]

lemma Execute_of_resolve_err (v : SearchVariant) (hh : Bool) (env : SearchEnv) (task : GoTask)
    (e : String) (h : resolveWeb v hh env (taskQuery task) = Except.error e) :
    SearchSubagent.Execute v hh env task =
      ({ taskType := TaskType.search, success := false, output := "", error := e,
         metadataQuery := none }, some e) := by
  unfold SearchSubagent.Execute
  rw [h]

/-- C4: when Tavily errors the subagent falls back to DuckDuckGo; the
Result has success=false exactly when both back-ends fail, and then
Result.error carries the DuckDuckGo error message. -/
theorem search_fallback_double_failure (v : SearchVariant) (hh : Bool) (env : SearchEnv)
    (task : GoTask) :
    (∀ e r, env.tavily (taskQuery task) = Except.error e →
        env.duckduckgo (taskQuery task) = Except.ok r →
        (SearchSubagent.Execute v hh env task).1.success = true) ∧
    ((SearchSubagent.Execute v hh env task).1.success = false ↔
      (∃ e1, env.tavily (taskQuery task) = Except.error e1) ∧
      (∃ e2, env.duckduckgo (taskQuery task) = Except.error e2)) ∧
    (∀ e1 e2, env.tavily (taskQuery task) = Except.error e1 →
        env.duckduckgo (taskQuery task) = Except.error e2 →
        (SearchSubagent.Execute v hh env task).1.error = e2) := by
  refine ⟨?_, ⟨?_, ?_⟩, ?_⟩
  · intro e r htav hddg
    have hres : resolveWeb v hh env (taskQuery task) = Except.ok r :=
      (resolveWeb_tavily_err v hh env _ e htav).trans hddg
    rw [Execute_of_resolve_ok v hh env task r hres]
  · intro hfail
    cases htav : env.tavily (taskQuery task) with
    | ok r =>
      obtain ⟨r2, hres⟩ := resolveWeb_tavily_ok v hh env _ r htav
      rw [Execute_of_resolve_ok v hh env task r2 hres] at hfail
      simp at hfail
    | error e1 =>
      have hres := resolveWeb_tavily_err v hh env (taskQuery task) e1 htav
      cases hddg : env.duckduckgo (taskQuery task) with
      | ok r =>
        rw [Execute_of_resolve_ok v hh env task r (hres.trans hddg)] at hfail
        simp at hfail
      | error e2 => exact ⟨⟨e1, rfl⟩, ⟨e2, rfl⟩⟩
  · rintro ⟨⟨e1, htav⟩, ⟨e2, hddg⟩⟩
    have hres : resolveWeb v hh env (taskQuery task) = Except.error e2 :=
      (resolveWeb_tavily_err v hh env _ e1 htav).trans hddg
    rw [Execute_of_resolve_err v hh env task e2 hres]
  · intro e1 e2 htav hddg
    have hres : resolveWeb v hh env (taskQuery task) = Except.error e2 :=
      (resolveWeb_tavily_err v hh env _ e1 htav).trans hddg
    rw [Execute_of_resolve_err v hh env task e2 hres]

def c4Env : SearchEnv where
  tavily := fun _ => Except.error "tavily down"
  tavilyWithLimit := fun _ _ => Except.ok "M"
  duckduckgo := fun _ => Except.error "ddg down"
  wikipedia := fun _ => Except.ok "W"
  reviewSearchResults := fun _ => Except.ok false

def c4Task : GoTask := { type := TaskType.search, description := "q4", parameters := [] }

/-- C4 witness: with both back-ends failing, the Result is a failure
carrying the DuckDuckGo message. -/
theorem search_fallback_double_failure_witness :
    (SearchSubagent.Execute searchVariantEn false c4Env c4Task).1.success = false ∧
    (SearchSubagent.Execute searchVariantEn false c4Env c4Task).1.error = "ddg down" := by
  have h := search_fallback_double_failure searchVariantEn false c4Env c4Task
  exact ⟨h.2.1.mpr ⟨⟨"tavily down", rfl⟩, ⟨"ddg down", rfl⟩⟩,
    h.2.2 "tavily down" "ddg down" rfl rfl⟩

/-- C5: on primary success with a handler present and a "more" review
answer, the bounded-higher-limit search is performed with the variant's
cap (100 in one version, 50 in the other, both within 50..100); its
success replaces the kept results and its error keeps the originals. -/
theorem search_more_results (v : SearchVariant) (env : SearchEnv) (task : GoTask) (r : String)
    (hv : v = searchVariantEn ∨ v = searchVariantZh)
    (htav : env.tavily (taskQuery task) = Except.ok r)
    (hrev : env.reviewSearchResults r = Except.ok true) :
    (50 ≤ v.moreLimit ∧ v.moreLimit ≤ 100) ∧
    (∀ more, env.tavilyWithLimit (taskQuery task) v.moreLimit = Except.ok more →
      resolveWeb v true env (taskQuery task) = Except.ok more) ∧
    (∀ e, env.tavilyWithLimit (taskQuery task) v.moreLimit = Except.error e →
      resolveWeb v true env (taskQuery task) = Except.ok r) := by
  refine ⟨?_, ?_, ?_⟩
  · rcases hv with h | h <;> subst h <;> exact ⟨by decide, by decide⟩
  · intro more hlim
    unfold resolveWeb
    rw [htav]
    simp [hrev, hlim]
  · intro e hlim
    unfold resolveWeb
    rw [htav]
    simp [hrev, hlim]

def c5Env : SearchEnv where
  tavily := fun _ => Except.ok "orig"
  tavilyWithLimit := fun _ n => if n == 100 then Except.ok "more100" else Except.error "lim"
  duckduckgo := fun _ => Except.error "ddg down"
  wikipedia := fun _ => Except.error "wiki down"
  reviewSearchResults := fun _ => Except.ok true

def c5Task : GoTask := { type := TaskType.search, description := "q5", parameters := [] }

/-- C5 witness: with the English-version cap the higher-limit search
succeeds and replaces the results; with the localized cap it fails here
and the originals are kept. -/
theorem search_more_results_witness :
    (50 ≤ searchVariantEn.moreLimit ∧ searchVariantEn.moreLimit ≤ 100) ∧
    resolveWeb searchVariantEn true c5Env (taskQuery c5Task) = Except.ok "more100" ∧
    resolveWeb searchVariantZh true c5Env (taskQuery c5Task) = Except.ok "orig" := by
  have hEn := search_more_results searchVariantEn c5Env c5Task "orig" (Or.inl rfl) rfl rfl
  have hZh := search_more_results searchVariantZh c5Env c5Task "orig" (Or.inr rfl) rfl rfl
  exact ⟨hEn.1, hEn.2.1 "more100" rfl, hZh.2.2 "lim" rfl⟩

/-- C6 counterexample: the localized version of the Search subagent
produces localized headers, not the literal "Web Search Results:" and
"Wikipedia Results:" concatenation the claim mandates for every Search
task. -/
def c6Env : SearchEnv where
  tavily := fun _ => Except.ok "R"
  tavilyWithLimit := fun _ _ => Except.ok "M"
  duckduckgo := fun _ => Except.error "ddg down"
  wikipedia := fun _ => Except.ok "W"
  reviewSearchResults := fun _ => Except.ok false

def c6Task : GoTask := { type := TaskType.search, description := "q6", parameters := [] }

theorem search_wikipedia_headers_counterexample :
    (SearchSubagent.Execute searchVariantZh false c6Env c6Task).1.output =
      "网络搜索结果:\nR\n\n维基百科结果:\nW" ∧
    ¬((SearchSubagent.Execute searchVariantZh false c6Env c6Task).1.output =
      "Web Search Results:\nR\n\nWikipedia Results:\nW") := by
  exact ⟨rfl, by decide⟩

/-- C6 amended: after the primary attempt resolves to a kept web result
(from Tavily or from the DuckDuckGo fallback), Wikipedia is always
attempted; a non-empty Wikipedia result is concatenated under the
variant's own pair of headers ("Web Search Results:"/"Wikipedia
Results:" in the English version, the localized pair in the other),
otherwise the web result alone is the output. -/
theorem search_wikipedia_after_resolve (v : SearchVariant) (hh : Bool) (env : SearchEnv)
    (task : GoTask) :
    (∀ e r, env.tavily (taskQuery task) = Except.error e →
        env.duckduckgo (taskQuery task) = Except.ok r →
        resolveWeb v hh env (taskQuery task) = Except.ok r) ∧
    (∀ r w, resolveWeb v hh env (taskQuery task) = Except.ok r →
        env.wikipedia (taskQuery task) = Except.ok w → ¬(w = "") →
        (SearchSubagent.Execute v hh env task).1.output =
          v.webHeader ++ "\n" ++ r ++ "\n\n" ++ v.wikiHeader ++ "\n" ++ w) ∧
    (∀ r, resolveWeb v hh env (taskQuery task) = Except.ok r →
        env.wikipedia (taskQuery task) = Except.ok "" →
        (SearchSubagent.Execute v hh env task).1.output = r) ∧
    (∀ r e, resolveWeb v hh env (taskQuery task) = Except.ok r →
        env.wikipedia (taskQuery task) = Except.error e →
        (SearchSubagent.Execute v hh env task).1.output = r) := by
  refine ⟨?_, ?_, ?_, ?_⟩
  · intro e r htav hddg
    exact (resolveWeb_tavily_err v hh env _ e htav).trans hddg
  · intro r w hres hwiki hw
    rw [Execute_of_resolve_ok v hh env task r hres]
    unfold addWikipedia
    rw [hwiki]
    simp [hw]
  · intro r hres hwiki
    rw [Execute_of_resolve_ok v hh env task r hres]
    unfold addWikipedia
    rw [hwiki]
    simp
  · intro r e hres hwiki
    rw [Execute_of_resolve_ok v hh env task r hres]
    unfold addWikipedia
    rw [hwiki]

/-- C6 amended witness: the English version on the same scenario, and the
fallback path feeding into the Wikipedia augmentation. -/
theorem search_wikipedia_after_resolve_witness :
    (SearchSubagent.Execute searchVariantEn false c6Env c6Task).1.output =
      "Web Search Results:\nR\n\nWikipedia Results:\nW" ∧
    resolveWeb searchVariantEn false c4Env (taskQuery c4Task) = Except.error "ddg down" := by
  have h := (search_wikipedia_after_resolve searchVariantEn false c6Env c6Task).2.1
    "R" "W" rfl rfl (by decide)
  exact ⟨h.trans (by decide), rfl⟩

def c7Task : GoTask :=
  { type := TaskType.analyze, description := "d",
    parameters := [("context", ParamValue.strList ["info"])] }

/-- C7 counterexample: on an Analyze task whose context parameter is the
non-empty string sequence ["info"], neither version produces the prompt
the claim mandates: the localized version uses a localized prefix and
the English version ignores a sequence-typed context entirely. -/
theorem analysis_prompt_counterexample :
    analysisPromptZh c7Task = "分析以下信息并 d:\n\ninfo" ∧
    analysisPromptEn c7Task = "d" ∧
    ¬("分析以下信息并 d:\n\ninfo" = "Analyze the following information and d:\n\ninfo") ∧
    ¬("d" = "Analyze the following information and d:\n\ninfo") := by
  exact ⟨rfl, rfl, by decide, by decide⟩

/-- C7 amended: the version that reads the context parameter as a string
sequence joins a non-empty sequence with blank lines under the localized
prefix and otherwise uses the description verbatim; the version that
reads it as a single string prefixes "Analyze the following information
and " to that string and ignores sequence contexts, using the
description verbatim for them. -/
theorem analysis_prompt_amended (t : GoTask) :
    (∀ l, t.getParam "context" = some (ParamValue.strList l) → ¬(l = []) →
      analysisPromptZh t =
        "分析以下信息并 " ++ t.description ++ ":\n\n" ++ String.intercalate "\n\n" l ∧
      analysisPromptEn t = t.description) ∧
    (∀ c, t.getParam "context" = some (ParamValue.str c) →
      analysisPromptEn t =
        "Analyze the following information and " ++ t.description ++ ":\n\n" ++ c ∧
      analysisPromptZh t = t.description) ∧
    (t.getParam "context" = none →
      analysisPromptZh t = t.description ∧ analysisPromptEn t = t.description) ∧
    (t.getParam "context" = some (ParamValue.strList []) →
      analysisPromptZh t = t.description ∧ analysisPromptEn t = t.description) := by
  refine ⟨?_, ?_, ?_, ?_⟩
  · intro l h hl
    have hpos : 0 < l.length := List.length_pos.mpr hl
    constructor
    · unfold analysisPromptZh
      rw [h]
      simp [hpos]
    · unfold analysisPromptEn
      rw [h]
  · intro c h
    constructor
    · unfold analysisPromptEn
      rw [h]
    · unfold analysisPromptZh
      rw [h]
  · intro h
    constructor
    · unfold analysisPromptZh
      rw [h]
    · unfold analysisPromptEn
      rw [h]
  · intro h
    constructor
    · unfold analysisPromptZh
      rw [h]
      simp
    · unfold analysisPromptEn
      rw [h]

/-- C7 amended witness at the concrete counterexample task. -/
theorem analysis_prompt_amended_witness :
    analysisPromptZh c7Task = "分析以下信息并 d:\n\ninfo" ∧
    analysisPromptEn c7Task = "d" := by
  have h := (analysis_prompt_amended c7Task).1 ["info"] rfl (by decide)
  exact ⟨h.1.trans (by decide), h.2⟩

/-- Whether a dynamic parameter is present and of Go type string. -/
def isStrParam : Option ParamValue → Bool
  | some (ParamValue.str _) => true
  | _ => false

lemma findLastContaining_eq_none (sub : List Char) :
    ∀ l : List String, (∀ x ∈ l, (goFindSub x.toList sub).isSome = false) →
      findLastContaining l sub = none := by
  intro l
  induction l with
  | nil => intro _; rfl
  | cons x xs ih =>
    intro h
    have hx : goFindSub x.toList sub = none := by
      cases hgx : goFindSub x.toList sub with
      | none => rfl
      | some i =>
        have hfalse := h x (List.mem_cons_self x xs)
        rw [hgx] at hfalse
        simp at hfalse
    unfold findLastContaining
    rw [ih (fun y hy => h y (List.mem_cons_of_mem x hy)), hx]
    simp

lemma findLastContaining_eq_last (sub : List Char) (e : String) (post : List String)
    (he : (goFindSub e.toList sub).isSome = true)
    (hpost : ∀ x ∈ post, (goFindSub x.toList sub).isSome = false) :
    ∀ pre : List String, findLastContaining (pre ++ e :: post) sub = some e := by
  intro pre
  induction pre with
  | nil =>
    rw [List.nil_append]
    unfold findLastContaining
    rw [findLastContaining_eq_none sub post hpost]
    simp [he]
    exact Option.ne_none_iff_isSome.mpr he
  | cons x xs ih =>
    rw [List.cons_append]
    unfold findLastContaining
    rw [ih]

def c8Task : GoTask :=
  { type := TaskType.render, description := "D",
    parameters := [("context", ParamValue.strList ["Output from REPORT task:\nHello"])] }

/-- C8 counterexample: the English version of the Render subagent never
consults the context parameter, so on a Render task with no content
parameter and a context holding a REPORT-headered entry it renders the
description instead of the stripped entry the claimed resolution order
mandates (which the localized version does produce). -/
theorem render_content_counterexample :
    renderContentEn c8Task = "D" ∧ ¬("D" = "Hello") ∧ renderContentZh c8Task = "Hello" := by
  exact ⟨rfl, by decide, by decide⟩

/-- C8 amended: the localized version resolves content in the claimed
order - content parameter, then the most recent context entry containing
"Output from REPORT task:" with its first line stripped, then the last
context entry cut after the first newline following "Output from ", then
the description - trimming surrounding whitespace of a context-derived
result; the English version resolves only content parameter then
description. -/
theorem render_content_resolution (t : GoTask) :
    (∀ c, t.getParam "content" = some (ParamValue.str c) →
      renderContentZh t = c ∧ renderContentEn t = c) ∧
    (isStrParam (t.getParam "content") = false →
      renderContentEn t = t.description ∧
      (∀ pre e post, t.getParam "context" = some (ParamValue.strList (pre ++ e :: post)) →
        (goFindSub e.toList reportHeaderChars).isSome = true →
        (∀ x ∈ post, (goFindSub x.toList reportHeaderChars).isSome = false) →
        renderContentZh t = (goTrimSpace (stripFirstLine e.toList)).asString) ∧
      (∀ pre e, t.getParam "context" = some (ParamValue.strList (pre ++ [e])) →
        (∀ x ∈ pre ++ [e], (goFindSub x.toList reportHeaderChars).isSome = false) →
        renderContentZh t = (goTrimSpace (stripOutputHeader e.toList)).asString) ∧
      (t.getParam "context" = none → renderContentZh t = t.description) ∧
      (t.getParam "context" = some (ParamValue.strList []) →
        renderContentZh t = t.description)) := by
  constructor
  · intro c h
    constructor
    · unfold renderContentZh
      rw [h]
    · unfold renderContentEn
      rw [h]
  · intro hno
    have hcontent : ∀ pv, t.getParam "content" = pv → ∀ c, ¬(pv = some (ParamValue.str c)) := by
      intro pv hpv c hc
      rw [hpv, hc] at hno
      simp [isStrParam] at hno
    refine ⟨?_, ?_, ?_, ?_, ?_⟩
    · unfold renderContentEn
      cases hpv : t.getParam "content" with
      | none => rfl
      | some pv =>
        cases pv with
        | str c => exact absurd rfl (hcontent _ hpv c)
        | strList l => rfl
        | other => rfl
    all_goals
      unfold renderContentZh
    · intro pre e post hctx he hpost
      cases hpv : t.getParam "content" with
      | none =>
        rw [hctx]
        have hlen : 0 < (pre ++ e :: post).length := by simp
        simp only [hlen, if_pos]
        rw [findLastContaining_eq_last reportHeaderChars e post he hpost pre]
      | some pv =>
        cases pv with
        | str c => exact absurd rfl (hcontent _ hpv c)
        | strList l =>
          rw [hctx]
          have hlen : 0 < (pre ++ e :: post).length := by simp
          simp only [hlen, if_pos]
          rw [findLastContaining_eq_last reportHeaderChars e post he hpost pre]
        | other =>
          rw [hctx]
          have hlen : 0 < (pre ++ e :: post).length := by simp
          simp only [hlen, if_pos]
          rw [findLastContaining_eq_last reportHeaderChars e post he hpost pre]
    · intro pre e hctx hall
      have hnone := findLastContaining_eq_none reportHeaderChars (pre ++ [e]) hall
      have hlast : (pre ++ [e]).getLastD "" = e := List.getLastD_concat "" e pre
      cases hpv : t.getParam "content" with
      | none =>
        rw [hctx]
        have hlen : 0 < (pre ++ [e]).length := by simp
        simp only [hlen, if_pos]
        rw [hnone, hlast]
      | some pv =>
        cases pv with
        | str c => exact absurd rfl (hcontent _ hpv c)
        | strList l =>
          rw [hctx]
          have hlen : 0 < (pre ++ [e]).length := by simp
          simp only [hlen, if_pos]
          rw [hnone, hlast]
        | other =>
          rw [hctx]
          have hlen : 0 < (pre ++ [e]).length := by simp
          simp only [hlen, if_pos]
          rw [hnone, hlast]
    · intro hctx
      cases hpv : t.getParam "content" with
      | none => rw [hctx]
      | some pv =>
        cases pv with
        | str c => exact absurd rfl (hcontent _ hpv c)
        | strList l => rw [hctx]
        | other => rw [hctx]
    · intro hctx
      cases hpv : t.getParam "content" with
      | none =>
        rw [hctx]
        simp
      | some pv =>
        cases pv with
        | str c => exact absurd rfl (hcontent _ hpv c)
        | strList l =>
          rw [hctx]
          simp
        | other =>
          rw [hctx]
          simp

/-- C8 amended witness: the localized resolution at two concrete tasks,
driven through the amended theorem. -/
theorem render_content_resolution_witness :
    renderContentZh c8Task = (goTrimSpace (stripFirstLine
      "Output from REPORT task:\nHello".toList)).asString ∧
    renderContentEn c8Task = "D" := by
  have h := (render_content_resolution c8Task).2 rfl
  exact ⟨h.2.1 [] "Output from REPORT task:\nHello" [] rfl (by decide)
    (fun x hx => absurd hx (List.not_mem_nil x)), h.1.trans (by decide)⟩

lemma runWithExe_invoked (env : PyEnv) (exe scriptPath : String) (args : List String) :
    (runWithExe env exe scriptPath args).invoked = [(exe, scriptPath, args)] := by
  unfold runWithExe
  cases h : (env.run exe scriptPath args).err <;> simp [h]

/-- C9: the interpreter is resolved as python3 first and python only on
python3 lookup failure; an error with nothing executed happens exactly
when neither lookup succeeds; a successful run returns stdout followed
by stderr. -/
theorem run_python_script_resolution (env : PyEnv) (scriptPath : String) (args : List String) :
    (∀ exe, env.lookPath "python3" = Except.ok exe →
      RunPythonScript env scriptPath args = runWithExe env exe scriptPath args) ∧
    (∀ e exe, env.lookPath "python3" = Except.error e →
      env.lookPath "python" = Except.ok exe →
      RunPythonScript env scriptPath args = runWithExe env exe scriptPath args) ∧
    (((∃ e, (RunPythonScript env scriptPath args).result = Except.error e) ∧
        (RunPythonScript env scriptPath args).invoked = []) ↔
      ((∃ e1, env.lookPath "python3" = Except.error e1) ∧
       (∃ e2, env.lookPath "python" = Except.error e2))) ∧
    (∀ exe, RunPythonScript env scriptPath args = runWithExe env exe scriptPath args →
      (env.run exe scriptPath args).err = none →
      (RunPythonScript env scriptPath args).result =
        Except.ok ((env.run exe scriptPath args).stdout ++
          (env.run exe scriptPath args).stderr)) := by
  refine ⟨?_, ?_, ⟨?_, ?_⟩, ?_⟩
  · intro exe h
    unfold RunPythonScript
    rw [h]
  · intro e exe h3 h
    unfold RunPythonScript
    rw [h3, h]
  · rintro ⟨⟨e, herr⟩, hinv⟩
    cases h3 : env.lookPath "python3" with
    | ok exe =>
      unfold RunPythonScript at hinv
      rw [h3, runWithExe_invoked] at hinv
      cases hinv
    | error e1 =>
      cases hp : env.lookPath "python" with
      | ok exe =>
        unfold RunPythonScript at hinv
        rw [h3, hp, runWithExe_invoked] at hinv
        cases hinv
      | error e2 => exact ⟨⟨e1, rfl⟩, ⟨e2, rfl⟩⟩
  · rintro ⟨⟨e1, h3⟩, ⟨e2, hp⟩⟩
    unfold RunPythonScript
    rw [h3, hp]
    exact ⟨⟨"failed to find python3 or python in PATH: " ++ e2, rfl⟩, rfl⟩
  · intro exe heq herr
    rw [heq]
    unfold runWithExe
    simp [herr]

def c9Env : PyEnv where
  lookPath := fun name => if name == "python" then Except.ok "/usr/bin/python"
    else Except.error "not found"
  run := fun _ _ _ => { stdout := "OUT", stderr := "ERR", err := none }

/-- C9 witness: python3 missing, python found; the run succeeds and the
output is stdout followed by stderr; and with the run oracle ignored the
double-failure characterization fires on an environment lacking both. -/
theorem run_python_script_resolution_witness :
    RunPythonScript c9Env "s.py" [] = runWithExe c9Env "/usr/bin/python" "s.py" [] ∧
    (RunPythonScript c9Env "s.py" []).result = Except.ok "OUTERR" := by
  have h := run_python_script_resolution c9Env "s.py" []
  have hres := h.2.1 "not found" "/usr/bin/python" rfl rfl
  have hok := h.2.2.2 "/usr/bin/python" hres rfl
  exact ⟨hres, hok.trans rfl⟩

/-- C10: a relative read_file path with a non-empty skill root is
resolved against the root only when a file exists at the joined
location; otherwise the original relative path is handed to the reader
unchanged, so a working-directory-relative file is still readable. -/
theorem read_file_path_resolution (env : FileEnv) (filePath skillPath : String)
    (hrel : goIsAbs filePath = false) (hsp : ¬(skillPath = "")) :
    (env.statOk (env.join skillPath filePath) = true →
      resolveReadFilePath env filePath skillPath = env.join skillPath filePath) ∧
    (env.statOk (env.join skillPath filePath) = false →
      resolveReadFilePath env filePath skillPath = filePath) ∧
    (∀ c, env.statOk (env.join skillPath filePath) = false →
      env.readFile filePath = Except.ok c →
      executeToolCallReadFile env filePath skillPath = Except.ok c) := by
  have hcond : (!goIsAbs filePath && skillPath != "") = true := by
    rw [hrel]
    simp [hsp]
  refine ⟨?_, ?_, ?_⟩
  · intro hstat
    unfold resolveReadFilePath
    rw [hcond]
    simp [hstat]
  · intro hstat
    unfold resolveReadFilePath
    rw [hcond]
    simp [hstat]
  · intro c hstat hread
    unfold executeToolCallReadFile resolveReadFilePath
    rw [hcond]
    simp [hstat, hread]

def c10Env : FileEnv where
  join := fun a b => a ++ "/" ++ b
  statOk := fun _ => false
  readFile := fun p => if p == "notes.txt" then Except.ok "hello from cwd"
    else Except.error "open: no such file"

/-- C10 witness: no file at the joined location, so the original
relative path reaches the reader and the working-directory file is
read. -/
theorem read_file_path_resolution_witness :
    resolveReadFilePath c10Env "notes.txt" "/skills/demo" = "notes.txt" ∧
    executeToolCallReadFile c10Env "notes.txt" "/skills/demo" =
      Except.ok "hello from cwd" := by
  have h := read_file_path_resolution c10Env "notes.txt" "/skills/demo" (by decide) (by decide)
  exact ⟨h.2.1 rfl, h.2.2 "hello from cwd" rfl rfl⟩

lemma deniedMsg_role (tc : ToolCall) : (deniedMsg tc).role = Role.tool := rfl

lemma toolResultMsg_role (tc : ToolCall) (r : Except String String) :
    (toolResultMsg tc r).role = Role.tool := by
  cases r <;> rfl

lemma toolCount_append_one (msgs : List Msg) (m : Msg) (hm : m.role = Role.tool) :
    toolCount (msgs ++ [m]) = toolCount msgs + 1 := by
  simp [toolCount, List.countP_append, List.countP_cons, hm]

lemma toolCount_append_nontool (msgs : List Msg) (m : Msg) (hm : ¬(m.role = Role.tool)) :
    toolCount (msgs ++ [m]) = toolCount msgs := by
  have hb : (m.role == Role.tool) = false := by
    cases hr : m.role <;> simp_all
  simp [toolCount, List.countP_append, List.countP_cons, hb]

lemma toolRound_toolCount (auto : Bool) (env : ToolLoopEnv) :
    ∀ (tcs : List ToolCall) (msgs : List Msg),
      toolCount (toolRound auto env msgs tcs) = toolCount msgs + tcs.length := by
  intro tcs
  induction tcs with
  | nil => intro msgs; simp [toolRound]
  | cons tc tcs ih =>
    intro msgs
    unfold toolRound
    by_cases hc : (!auto && !env.approve msgs tc) = true
    · rw [if_pos hc, ih, toolCount_append_one msgs _ (deniedMsg_role tc)]
      simp only [List.length_cons]
      omega
    · rw [if_neg hc, ih, toolCount_append_one msgs _ (toolResultMsg_role tc _)]
      simp only [List.length_cons]
      omega

lemma execLoop_rounds_le (auto : Bool) (env : ToolLoopEnv) :
    ∀ (fuel : Nat) (msgs : List Msg) (r : Nat),
      (execLoop auto env fuel msgs r).rounds ≤ r + fuel := by
  intro fuel
  induction fuel with
  | zero => intro msgs r; simp [execLoop]
  | succ fuel ih =>
    intro msgs r
    cases hc : env.chat msgs with
    | error e =>
      simp [execLoop, hc]
    | ok p =>
      obtain ⟨content, otc⟩ := p
      cases otc with
      | none =>
        simp [execLoop, hc]
      | some tcs =>
        have h := ih (toolRound auto env (msgs ++ [assistantMsg content (some tcs)]) tcs) (r + 1)
        simp only [execLoop, hc]
        omega

lemma execLoop_error_of_all_toolcalls (auto : Bool) (env : ToolLoopEnv)
    (h : ∀ ms, ∃ c tcs, env.chat ms = Except.ok (c, some tcs)) :
    ∀ (fuel : Nat) (msgs : List Msg) (r : Nat),
      (execLoop auto env fuel msgs r).result =
        Except.error "exceeded maximum tool call iterations" := by
  intro fuel
  induction fuel with
  | zero => intro msgs r; rfl
  | succ fuel ih =>
    intro msgs r
    obtain ⟨c, tcs, hc⟩ := h msgs
    simp only [execLoop, hc]
    exact ih _ _

lemma execLoop_toolCount_of_single (auto : Bool) (env : ToolLoopEnv)
    (h : ∀ ms, ∃ c tc, env.chat ms = Except.ok (c, some [tc])) :
    ∀ (fuel : Nat) (msgs : List Msg) (r : Nat),
      toolCount (execLoop auto env fuel msgs r).messages = toolCount msgs + fuel := by
  intro fuel
  induction fuel with
  | zero => intro msgs r; simp [execLoop]
  | succ fuel ih =>
    intro msgs r
    obtain ⟨c, tc, hc⟩ := h msgs
    simp only [execLoop, hc]
    rw [ih, toolRound_toolCount,
      toolCount_append_nontool msgs _ (by simp [assistantMsg])]
    simp only [List.length_cons, List.length_nil]
    omega

lemma execLoop_ok_last (auto : Bool) (env : ToolLoopEnv) :
    ∀ (fuel : Nat) (msgs : List Msg) (r : Nat) (out : String),
      (execLoop auto env fuel msgs r).result = Except.ok out →
      (execLoop auto env fuel msgs r).messages.getLast? = some (assistantMsg out none) := by
  intro fuel
  induction fuel with
  | zero =>
    intro msgs r out h
    simp [execLoop] at h
  | succ fuel ih =>
    intro msgs r out h
    cases hc : env.chat msgs with
    | error e =>
      simp [execLoop, hc] at h
    | ok p =>
      obtain ⟨content, otc⟩ := p
      cases otc with
      | none =>
        simp only [execLoop, hc] at h ⊢
        have : content = out := by
          simpa using h
        rw [this, List.getLast?_concat]
      | some tcs =>
        simp only [execLoop, hc] at h ⊢
        exact ih _ _ _ h

/-- C1: the skill tool loop performs at most 10 chat-completion rounds;
if every round returns tool calls the loop ends with the error
"exceeded maximum tool call iterations", and if every round returns
exactly one tool call then exactly 10 tool-role messages have been
appended by then. -/
theorem skill_tool_loop_bound (auto : Bool) (env : ToolLoopEnv) (sk : SkillPackage)
    (up : String) :
    (executeSkillWithTools auto env sk up).rounds ≤ 10 ∧
    ((∀ ms, ∃ c tcs, env.chat ms = Except.ok (c, some tcs)) →
      (executeSkillWithTools auto env sk up).result =
        Except.error "exceeded maximum tool call iterations") ∧
    ((∀ ms, ∃ c tc, env.chat ms = Except.ok (c, some [tc])) →
      toolCount (executeSkillWithTools auto env sk up).messages = 10) := by
  refine ⟨?_, ?_, ?_⟩
  · have h := execLoop_rounds_le auto env 10 (initMessages sk up) 0
    simpa [executeSkillWithTools] using h
  · intro h
    exact execLoop_error_of_all_toolcalls auto env h 10 (initMessages sk up) 0
  · intro h
    have hx := execLoop_toolCount_of_single auto env h 10 (initMessages sk up) 0
    have h0 : toolCount (initMessages sk up) = 0 := rfl
    rw [h0] at hx
    simpa [executeSkillWithTools] using hx

def cSkill : SkillPackage := { body := "B", path := "/p" }

def c1Tc : ToolCall := { id := "call-0", name := "t", arguments := "" }

def c1Env : ToolLoopEnv where
  chat := fun _ => Except.ok ("x", some [c1Tc])
  approve := fun _ _ => true
  execTool := fun _ => Except.ok "out"

/-- C1 witness: an LLM that always asks for one tool call exhausts the
cap with exactly 10 tool-role messages. -/
theorem skill_tool_loop_bound_witness :
    (executeSkillWithTools true c1Env cSkill "u").rounds ≤ 10 ∧
    (executeSkillWithTools true c1Env cSkill "u").result =
      Except.error "exceeded maximum tool call iterations" ∧
    toolCount (executeSkillWithTools true c1Env cSkill "u").messages = 10 := by
  have h := skill_tool_loop_bound true c1Env cSkill "u"
  exact ⟨h.1, h.2.1 (fun ms => ⟨"x", [c1Tc], rfl⟩), h.2.2 (fun ms => ⟨"x", c1Tc, rfl⟩)⟩

/-- C2: when the loop returns a final output without an error, the last
message appended is an assistant message with no tool calls whose
content is the returned output. -/
theorem skill_tool_loop_final_message (auto : Bool) (env : ToolLoopEnv) (sk : SkillPackage)
    (up out : String)
    (h : (executeSkillWithTools auto env sk up).result = Except.ok out) :
    (executeSkillWithTools auto env sk up).messages.getLast? =
      some (assistantMsg out none) :=
  execLoop_ok_last auto env 10 (initMessages sk up) 0 out h

def c2Env : ToolLoopEnv where
  chat := fun _ => Except.ok ("done", none)
  approve := fun _ _ => true
  execTool := fun _ => Except.ok "o"

/-- C2 witness: an immediate tool-free reply is returned as the output
and sits last in the conversation. -/
theorem skill_tool_loop_final_message_witness :
    (executeSkillWithTools true c2Env cSkill "u").result = Except.ok "done" ∧
    (executeSkillWithTools true c2Env cSkill "u").messages.getLast? =
      some (assistantMsg "done" none) :=
  ⟨rfl, skill_tool_loop_final_message true c2Env cSkill "u" "done" rfl⟩

lemma toolRound_all_denied (env : ToolLoopEnv) :
    ∀ tcs : List ToolCall, (∀ ms tc, tc ∈ tcs → env.approve ms tc = false) →
      ∀ msgs : List Msg, toolRound false env msgs tcs = msgs ++ tcs.map deniedMsg := by
  intro tcs
  induction tcs with
  | nil =>
    intro _ msgs
    simp [toolRound]
  | cons tc tcs ih =>
    intro hdeny msgs
    have ha : env.approve msgs tc = false := hdeny msgs tc (List.mem_cons_self tc tcs)
    unfold toolRound
    rw [ha]
    simp only [Bool.not_false, Bool.and_self, if_pos]
    rw [ih (fun ms tc2 h2 => hdeny ms tc2 (List.mem_cons_of_mem tc h2))]
    simp [List.append_assoc]

lemma execLoop_denied_round (env : ToolLoopEnv) (msgs : List Msg) (tcs : List ToolCall)
    (c1 c2 : String) (fuel r : Nat)
    (hchat1 : env.chat msgs = Except.ok (c1, some tcs))
    (hdeny : ∀ ms tc, tc ∈ tcs → env.approve ms tc = false)
    (hchat2 : env.chat ((msgs ++ [assistantMsg c1 (some tcs)]) ++ tcs.map deniedMsg) =
      Except.ok (c2, none)) :
    execLoop false env (fuel + 2) msgs r =
      { result := Except.ok c2,
        messages := ((msgs ++ [assistantMsg c1 (some tcs)]) ++ tcs.map deniedMsg) ++
          [assistantMsg c2 none],
        rounds := r + 2 } := by
  show execLoop false env (Nat.succ (Nat.succ fuel)) msgs r = _
  simp only [execLoop, hchat1]
  rw [toolRound_all_denied env tcs hdeny]
  simp only [execLoop, hchat2]

/-- C3: with auto-approve off, a denied tool call appends the literal
tool-role message "Error: User denied tool execution." bearing the
call's id, leaves the tool back-end uninvoked (the run is identical for
every choice of back-end), and the loop continues: a following
tool-call-free assistant message is returned as the final output. -/
theorem skill_tool_loop_denial (env : ToolLoopEnv) (sk : SkillPackage) (up : String)
    (tcs : List ToolCall) (c1 c2 : String)
    (hchat1 : env.chat (initMessages sk up) = Except.ok (c1, some tcs))
    (hdeny : ∀ ms tc, tc ∈ tcs → env.approve ms tc = false)
    (hchat2 : env.chat ((initMessages sk up ++ [assistantMsg c1 (some tcs)]) ++
      tcs.map deniedMsg) = Except.ok (c2, none)) :
    executeSkillWithTools false env sk up =
      { result := Except.ok c2,
        messages := ((initMessages sk up ++ [assistantMsg c1 (some tcs)]) ++
          tcs.map deniedMsg) ++ [assistantMsg c2 none],
        rounds := 2 } ∧
    (∀ f : ToolCall → Except String String,
      executeSkillWithTools false
        { chat := env.chat, approve := env.approve, execTool := f } sk up =
        executeSkillWithTools false env sk up) := by
  have key := execLoop_denied_round env (initMessages sk up) tcs c1 c2 8 0
    hchat1 hdeny hchat2
  have h10 : executeSkillWithTools false env sk up =
      execLoop false env (8 + 2) (initMessages sk up) 0 := rfl
  constructor
  · rw [h10, key]
  · intro f
    have keyf := execLoop_denied_round
      { chat := env.chat, approve := env.approve, execTool := f }
      (initMessages sk up) tcs c1 c2 8 0 hchat1 hdeny hchat2
    have h10f : executeSkillWithTools false
        { chat := env.chat, approve := env.approve, execTool := f } sk up =
        execLoop false { chat := env.chat, approve := env.approve, execTool := f }
          (8 + 2) (initMessages sk up) 0 := rfl
    rw [h10f, keyf, h10, key]

def c3Tc : ToolCall := { id := "call-1", name := "t", arguments := "" }

def c3Env : ToolLoopEnv where
  chat := fun ms => if ms.length == 2 then Except.ok ("a", some [c3Tc])
    else Except.ok ("b", none)
  approve := fun _ _ => false
  execTool := fun _ => Except.ok "ignored"

/-- C3 witness: one denied call, then a tool-free reply returned as the
output with the denial message in the conversation. -/
theorem skill_tool_loop_denial_witness :
    (executeSkillWithTools false c3Env cSkill "u").result = Except.ok "b" ∧
    (executeSkillWithTools false c3Env cSkill "u").messages =
      ((initMessages cSkill "u" ++ [assistantMsg "a" (some [c3Tc])]) ++
        [deniedMsg c3Tc]) ++ [assistantMsg "b" none] := by
  have h := skill_tool_loop_denial c3Env cSkill "u" [c3Tc] "a" "b" rfl
    (fun _ _ _ => rfl) rfl
  refine ⟨by rw [h.1], ?_⟩
  rw [h.1]
  rfl
